import Mathlib

/-!
# Verification of the findYourDinner workbook-internals parser

Shallow embedding of the xlsx image-extraction core (`XMLParser` in the
repository's parsing file, and `ImageStore` in `src/js/imageStore.js`),
together with proofs settling the specification claims.

Modelling conventions:
* JavaScript strings are modelled as `List Char` (`Str`).
* An XML *text* entry is modelled by its `DOMParser` parse result
  (`XmlDoc`): `XmlDoc.malformed` stands for text that does not parse (the
  parser-error document, which contains none of the elements the code
  queries), `XmlDoc.doc root` for a well-formed document.
* The external ZIP reader (an out-of-scope collaborator, spec §6:
  `readText(path) -> string | fails(NotFound)`) is modelled as a partial
  map `Zip := Str → Option XmlDoc`: a present entry is readable and is
  represented by the parse of its text.
* JavaScript numbers are modelled exactly: `parseInt` returns
  `Option Int` (`none` = NaN) and a number that may be NaN is a `JsNum`
  (NaN or an exact rational).
-/

/-- JavaScript strings, modelled as lists of characters. -/
abbrev Str := List Char

/-- Coerce a Lean string literal to the `Str` model. -/
def strL (s : String) : Str := s.data

/-- The ASCII whitespace skipped by JavaScript `parseInt` (the unicode
space characters, which cannot occur in the attribute values this code
reads, are not modelled). -/
def jsWhitespace (c : Char) : Bool :=
  c = ' ' || c = '\t' || c = '\n' || c = '\r' || c = '\x0b' || c = '\x0c'

/-- Value of a decimal digit character, `none` otherwise. -/
def decDigitVal? (c : Char) : Option Nat :=
  if '0' ≤ c ∧ c ≤ '9' then some (c.toNat - 48) else none

/-- Value of a hexadecimal digit character, `none` otherwise. -/
def hexDigitVal? (c : Char) : Option Nat :=
  if '0' ≤ c ∧ c ≤ '9' then some (c.toNat - 48)
  else if 'a' ≤ c ∧ c ≤ 'f' then some (c.toNat - 87)
  else if 'A' ≤ c ∧ c ≤ 'F' then some (c.toNat - 55)
  else none

/-- Accumulate the longest digit prefix; `none` means no digit was seen
(JavaScript `parseInt` then yields NaN). -/
def parseDigits (f : Char → Option Nat) (base : Nat) : Str → Option Nat → Option Nat
  | [], acc => acc
  | c :: rest, acc =>
    match f c with
    | some d => parseDigits f base rest (some ((acc.getD 0) * base + d))
    | none => acc

/-- JavaScript `parseInt(s)` (no explicit radix): skip whitespace, optional
sign, optional `0x`/`0X` hexadecimal prefix, then the longest digit
prefix; `none` models the NaN result when no digit is found. -/
def parseIntJS (s : Str) : Option Int :=
  let s1 := s.dropWhile jsWhitespace
  let signAndRest : Bool × Str :=
    match s1 with
    | '-' :: t => (true, t)
    | '+' :: t => (false, t)
    | _ => (false, s1)
  let digitsPart : (Char → Option Nat) × Nat × Str :=
    match signAndRest.2 with
    | '0' :: 'x' :: t => (hexDigitVal?, 16, t)
    | '0' :: 'X' :: t => (hexDigitVal?, 16, t)
    | _ => (decDigitVal?, 10, signAndRest.2)
  match parseDigits digitsPart.1 digitsPart.2.1 digitsPart.2.2 none with
  | none => none
  | some n => some (if signAndRest.1 then -(n : Int) else (n : Int))

/-- A JavaScript number that may be NaN; non-NaN values are exact
rationals (the divisions the code performs are exact on its inputs). -/
inductive JsNum where
  | nan : JsNum
  | of (q : ℚ) : JsNum
deriving DecidableEq, Repr

/-- `parseInt(...) / d` as in the source: NaN propagates. -/
def divNum (v : Option Int) (d : ℚ) : JsNum :=
  match v with
  | none => JsNum.nan
  | some n => JsNum.of ((n : ℚ) / d)

/-- Substring test on character lists (contiguous occurrence). -/
def isSubstrOf (pat : Str) : Str → Bool
  | [] => pat.isEmpty
  | c :: t => pat.isPrefixOf (c :: t) || isSubstrOf pat t

/-- JavaScript `s.includes(pat)`: substring test. -/
def jsIncludes (s pat : Str) : Bool := isSubstrOf pat s

/-- JavaScript `s.replace(pat, repl)` with a string pattern: replaces only
the first occurrence of `pat`, leftmost match; `s` unchanged if `pat`
does not occur. -/
def jsReplaceFirst (s pat repl : Str) : Str :=
  if pat.isPrefixOf s then repl ++ s.drop pat.length
  else
    match s with
    | [] => []
    | c :: t => c :: jsReplaceFirst t pat repl

/-- An XML element: tag name, attribute list (document order; attribute
names are unique in a parsed document), children (document order). -/
inductive Xml where
  | elem (tag : Str) (attrs : List (Str × Str)) (children : List Xml)

/-- Tag name accessor. -/
def Xml.tagOf : Xml → Str
  | .elem t _ _ => t

/-- Attribute list accessor (`element.attributes`). -/
def Xml.attrsOf : Xml → List (Str × Str)
  | .elem _ a _ => a

/-- Children accessor. -/
def Xml.childrenOf : Xml → List Xml
  | .elem _ _ c => c

/-- `element.getAttribute(n)`: value of the attribute named `n`, `none`
(JS `null`) if absent.  `element.hasAttribute(n)` is `(getAttr x n).isSome`
in this model. -/
def getAttr (x : Xml) (n : Str) : Option Str :=
  (x.attrsOf.find? (fun p => p.1 == n)).map (·.2)

mutual

/-- An element followed by its descendants in document (pre-) order. -/
def elemWithDescendants : Xml → List Xml
  | .elem t a c => .elem t a c :: allElems c

/-- All elements of a forest in document (pre-) order. -/
def allElems : List Xml → List Xml
  | [] => []
  | x :: rest => elemWithDescendants x ++ allElems rest

end

/-- A parsed `DOMParser` result: `malformed` stands for input text that is
not well-formed XML (the returned parser-error document contains none of
the elements this code queries). -/
inductive XmlDoc where
  | malformed : XmlDoc
  | doc (root : Xml) : XmlDoc

/-- `document.getElementsByTagName(tag)`: all elements of the document
(including the root) with the given tag, in document order. -/
def docElemsByTag (d : XmlDoc) (tag : Str) : List Xml :=
  match d with
  | .malformed => []
  | .doc root => (allElems [root]).filter (fun e => e.tagOf == tag)

/-- `element.getElementsByTagName(tag)`: all proper descendants with the
given tag, in document order. -/
def elemsByTag (x : Xml) (tag : Str) : List Xml :=
  (allElems x.childrenOf).filter (fun e => e.tagOf == tag)

/-- Per-image geometric transform, mirroring the source's transform
object: `rotation` in degrees, flip booleans, crop edges in percent.
Numeric fields are `JsNum` because the source divides `parseInt` results,
so NaN can flow into them. -/
structure Crop where
  left : JsNum
  top : JsNum
  right : JsNum
  bottom : JsNum
deriving DecidableEq, Repr

structure Transform where
  rotation : JsNum
  flipH : Bool
  flipV : Bool
  crop : Crop
deriving DecidableEq, Repr

/-- `XMLParser.getDefaultTransform()`: the identity transform. -/
def getDefaultTransform : Transform :=
  { rotation := JsNum.of 0
    flipH := false
    flipV := false
    crop := { left := JsNum.of 0, top := JsNum.of 0, right := JsNum.of 0, bottom := JsNum.of 0 } }

/-- Per-sheet record extracted from `workbook.xml` by
`XMLParser.extractSheetInfo`; `name`, `sheetId`, `rId` come from
attributes (JS `null` = `none`), `index` is the 1-based position. -/
structure SheetInfo where
  name : Option Str
  sheetId : Option Str
  rId : Option Str
  index : Nat

/-- `XMLParser.extractSheetInfo(workbookXML)`: one record per `sheet`
element in document order, with `index = i + 1`. -/
def extractSheetInfo (d : XmlDoc) : List SheetInfo :=
  (docElemsByTag d (strL "sheet")).enum.map (fun is =>
    { name := getAttr is.2 (strL "name")
      sheetId := getAttr is.2 (strL "sheetId")
      rId := getAttr is.2 (strL "r:id")
      index := is.1 + 1 })

/-- `'xl/' + target.replace('../', '')`: the source's resolution of a
relationship target against the fixed root (only the first `../` is
stripped, per JS `String.replace` with a string pattern). -/
def resolveTarget (t : Str) : Str :=
  strL "xl/" ++ jsReplaceFirst t (strL "../") []

/-- The loop body of `XMLParser.extractDrawingPath`: first relationship
whose (truthy) `Target` contains `"drawing"`, resolved. -/
def findDrawingTarget : List Xml → Option Str
  | [] => none
  | rel :: rest =>
    match getAttr rel (strL "Target") with
    | some t =>
      if !t.isEmpty && jsIncludes t (strL "drawing") then some (resolveTarget t)
      else findDrawingTarget rest
    | none => findDrawingTarget rest

/-- `XMLParser.extractDrawingPath(relsXML)`. -/
def extractDrawingPath (d : XmlDoc) : Option Str :=
  findDrawingTarget (docElemsByTag d (strL "Relationship"))

/-- The qualification-and-resolution step of the loop body of
`XMLParser.extractImagePaths`: JS
`target && (target.includes('image') || type && type.includes('image'))`,
with JS truthiness (absent attribute or empty string is falsy). -/
def imageRelResolve (rel : Xml) : Option Str :=
  match getAttr rel (strL "Target") with
  | some t =>
    if !t.isEmpty &&
        (jsIncludes t (strL "image") ||
          (match getAttr rel (strL "Type") with
           | some ty => !ty.isEmpty && jsIncludes ty (strL "image")
           | none => false)) then
      some (resolveTarget t)
    else none
  | none => none

/-- `XMLParser.extractImagePaths(drawingRelsXML)`. -/
def extractImagePaths (d : XmlDoc) : List Str :=
  (docElemsByTag d (strL "Relationship")).filterMap imageRelResolve

/-- The access path `picElement.getElementsByTagName('xdr:spPr')[0]`
followed by `.getElementsByTagName('a:xfrm')[0]` in
`extractSingleImageTransform`. -/
def picXfrm (pic : Xml) : Option Xml :=
  (elemsByTag pic (strL "xdr:spPr")).head?.bind
    (fun spPr => (elemsByTag spPr (strL "a:xfrm")).head?)

/-- The access path `picElement.getElementsByTagName('xdr:blipFill')[0]`
followed by `.getElementsByTagName('a:srcRect')[0]`. -/
def picSrcRect (pic : Xml) : Option Xml :=
  (elemsByTag pic (strL "xdr:blipFill")).head?.bind
    (fun bf => (elemsByTag bf (strL "a:srcRect")).head?)

/-- `XMLParser.extractSingleImageTransform(picElement)`: starts from the
default transform, overwrites rotation/flip from the first `a:xfrm` under
the first `xdr:spPr` (attribute present ⇒ field set), then the crop edges
from the first `a:srcRect` under the first `xdr:blipFill` when that
element has at least one attribute.  The source's `try/catch` is not
modelled: every operation in the body is total. -/
def extractSingleImageTransform (pic : Xml) : Transform :=
  let t0 := getDefaultTransform
  let t1 :=
    match picXfrm pic with
    | none => t0
    | some xfrm =>
      { t0 with
        rotation :=
          match getAttr xfrm (strL "rot") with
          | some s => divNum (parseIntJS s) 60000
          | none => t0.rotation
        flipH :=
          match getAttr xfrm (strL "flipH") with
          | some s => s == strL "1"
          | none => t0.flipH
        flipV :=
          match getAttr xfrm (strL "flipV") with
          | some s => s == strL "1"
          | none => t0.flipV }
  match picSrcRect pic with
  | none => t1
  | some srcRect =>
    if srcRect.attrsOf.length > 0 then
      { t1 with
        crop :=
          { left :=
              match getAttr srcRect (strL "l") with
              | some s => divNum (parseIntJS s) 1000
              | none => t1.crop.left
            top :=
              match getAttr srcRect (strL "t") with
              | some s => divNum (parseIntJS s) 1000
              | none => t1.crop.top
            right :=
              match getAttr srcRect (strL "r") with
              | some s => divNum (parseIntJS s) 1000
              | none => t1.crop.right
            bottom :=
              match getAttr srcRect (strL "b") with
              | some s => divNum (parseIntJS s) 1000
              | none => t1.crop.bottom } }
    else t1

/-- `XMLParser.extractImageTransforms(drawingXML, imageCount)`: the loop
`for (i = 0; i < pics.length && i < imageCount; i++)` pushing one
transform per `xdr:pic`, i.e. the first `imageCount` pictures mapped. -/
def extractImageTransforms (d : XmlDoc) (imageCount : Nat) : List Transform :=
  ((docElemsByTag d (strL "xdr:pic")).take imageCount).map extractSingleImageTransform

/-- The indexed map of step 7 of `createSheetImageMapping`:
`imagePaths.map((path, index) => ({path, transform: imageTransforms[index] || getDefaultTransform()}))`;
`i` is the running index. -/
def combineAux (ts : List Transform) (i : Nat) : List Str → List (Str × Transform)
  | [] => []
  | p :: ps => (p, (ts.get? i).getD getDefaultTransform) :: combineAux ts (i + 1) ps

/-- Step 7 of `createSheetImageMapping` (paths zipped with transforms,
identity transform substituted past the end of the transform list). -/
def combineImagePathsTransforms (imagePaths : List Str) (imageTransforms : List Transform) :
    List (Str × Transform) :=
  combineAux imageTransforms 0 imagePaths

/-- The mapping object: a JS plain object, modelled as an association
list in insertion order with last-write-wins assignment. -/
abbrev Mapping := List (Str × List (Str × Transform))

/-- JS `mapping[k] = v`. -/
def mapInsert (m : Mapping) (k : Str) (v : List (Str × Transform)) : Mapping :=
  if m.any (fun p => p.1 == k) then m.map (fun p => if p.1 == k then (k, v) else p)
  else m ++ [(k, v)]

/-- JS `mapping[k]` (absent key = `none`). -/
def mapLookup (m : Mapping) (k : Str) : Option (List (Str × Transform)) :=
  (m.find? (fun p => p.1 == k)).map (·.2)

/-- The external ZIP reader: present entries are readable and modelled by
the parse of their text (spec §6: `readText(path) -> string | fails(NotFound)`). -/
abbrev Zip := Str → Option XmlDoc

/-- The fixed manifest path `xl/workbook.xml`. -/
def manifestPath : Str := strL "xl/workbook.xml"

/-- Decimal digit character (`d` is always `< 10` at use sites). -/
def digitChar : Nat → Char
  | 0 => '0' | 1 => '1' | 2 => '2' | 3 => '3' | 4 => '4'
  | 5 => '5' | 6 => '6' | 7 => '7' | 8 => '8' | _ => '9'

/-- Decimal rendering, fuelled so that the kernel can reduce it; the fuel
`n + 1` always exceeds the number of digits of `n`. -/
def natDigitsAux : Nat → Nat → List Char
  | 0, _ => []
  | fuel + 1, n =>
    if n < 10 then [digitChar n]
    else natDigitsAux fuel (n / 10) ++ [digitChar (n % 10)]

/-- Decimal rendering of a natural number (JS template `${sheetIndex}`). -/
def natDigits (n : Nat) : Str := natDigitsAux (n + 1) n

/-- The fixed per-sheet relationship path
`xl/worksheets/_rels/sheet${sheetIndex}.xml.rels`. -/
def relsPathOf (n : Nat) : Str :=
  strL "xl/worksheets/_rels/sheet" ++ natDigits n ++ strL ".xml.rels"

/-- Step 5's path derivation:
`drawingPath.replace('/drawings/', '/drawings/_rels/') + '.rels'`. -/
def drawingRelsPathOf (drawingPath : Str) : Str :=
  jsReplaceFirst drawingPath (strL "/drawings/") (strL "/drawings/_rels/") ++ strL ".rels"

/-- Steps 6–7 of `createSheetImageMapping`: extract transforms for the
found image paths and record the zipped list under the sheet name when
non-empty. -/
def recordImages (mapping : Mapping) (nameKey : Str) (imagePaths : List Str)
    (drawingDoc : XmlDoc) : Mapping :=
  if imagePaths.length > 0 then
    mapInsert mapping nameKey
      (combineImagePathsTransforms imagePaths
        (extractImageTransforms drawingDoc imagePaths.length))
  else mapping

/-- One iteration of the per-sheet loop of
`XMLParser.createSheetImageMapping` (steps 2–7): every `continue` leaves
the mapping unchanged. -/
def processSheet (zip : Zip) (mapping : Mapping) (sheet : SheetInfo) : Mapping :=
  match zip (relsPathOf sheet.index) with
  | none => mapping
  | some relsDoc =>
    match extractDrawingPath relsDoc with
    | none => mapping
    | some drawingPath =>
      match zip drawingPath with
      | none => mapping
      | some drawingDoc =>
        match zip (drawingRelsPathOf drawingPath) with
        | none => mapping
        | some drawingRelsDoc =>
          recordImages mapping (sheet.name.getD (strL "null"))
            (extractImagePaths drawingRelsDoc) drawingDoc

/-- `XMLParser.createSheetImageMapping(zip)`: reads the manifest, then
folds the per-sheet loop over the sheet list.  A missing manifest entry
throws in the source (`zip.file(...)` is `null`), is caught by the
surrounding `try/catch`, and the still-empty mapping is returned — hence
the `none` branch; a manifest that does not parse yields no `sheet`
elements and likewise an empty mapping. -/
def createSheetImageMapping (zip : Zip) : Mapping :=
  match zip manifestPath with
  | none => []
  | some wbDoc => (extractSheetInfo wbDoc).foldl (processSheet zip) []

/-- A JS value that is either one item or an array of items
(`Blob|Blob[]`, `Object|Object[]` in `imageStore.js`). -/
inductive OneOrMany (α : Type) where
  | one (a : α) : OneOrMany α
  | many (l : List α) : OneOrMany α

/-- `Array.isArray(x) ? x : [x]` in `ImageStore.saveImage`. -/
def normToArray {α : Type} : OneOrMany α → List α
  | .one a => [a]
  | .many l => l

/-- `transforms ? (Array.isArray(transforms) ? transforms : [transforms]) : []`
in `ImageStore.saveImage` (`none` models the `null` default). -/
def normTransforms (t : Option (OneOrMany Transform)) : List Transform :=
  match t with
  | none => []
  | some o => normToArray o

/-- `ImageStore.getDefaultTransform()` (same identity value as the
parser's). -/
def storeDefaultTransform : Transform := getDefaultTransform

/-- `while (ts.length < n) ts.push(getDefaultTransform())`. -/
def padTransforms (ts : List Transform) (n : Nat) : List Transform :=
  ts ++ List.replicate (n - ts.length) storeDefaultTransform

/-- A record in the `images` object store.  Old-format records carry
`imageBlob`/`transform`, new-format ones `imageBlobs`/`transforms`;
absent JS properties are `none`.  `α` is the blob type (blobs are opaque
to the store logic). -/
structure StoredRecord (α : Type) where
  recipeName : Str
  imageBlobs : Option (List α)
  imageBlob : Option α
  transforms : Option (List Transform)
  transform : Option Transform

/-- The record `ImageStore.saveImage(recipeName, imageBlob, transforms)`
puts into the store (the `store.put` argument after normalisation and
padding). -/
def saveImageRecord {α : Type} (recipeName : Str) (imageBlob : OneOrMany α)
    (transforms : Option (OneOrMany Transform)) : StoredRecord α :=
  let imageBlobs := normToArray imageBlob
  let transformsArray := padTransforms (normTransforms transforms) imageBlobs.length
  { recipeName := recipeName
    imageBlobs := some imageBlobs
    imageBlob := none
    transforms := some transformsArray
    transform := none }

/-- The blob/transform resolution step shared by the readers:
`if (result.imageBlobs && result.imageBlobs.length > 0) … else if (result.imageBlob) …`
in `ImageStore.getAllImageDataURLs`. -/
def resolveStoredBlobs {α : Type} (r : StoredRecord α) : List α × List Transform :=
  match r.imageBlobs with
  | some bs =>
    if bs.length > 0 then (bs, r.transforms.getD [])
    else
      match r.imageBlob with
      | some b => ([b], [r.transform.getD storeDefaultTransform])
      | none => ([], [])
  | none =>
    match r.imageBlob with
    | some b => ([b], [r.transform.getD storeDefaultTransform])
    | none => ([], [])

/-- The indexed map `blobs.map((blob, index) => ({dataUrl, transform: transforms[index]}))`
of `getAllImageDataURLs`; `toDataUrl` models the external `FileReader`
data-URL conversion.  `transforms[index]` is `undefined`-guarded with the
store default only through the preceding padding; past-the-end access
(impossible after padding) is modelled as the JS `undefined` flowing into
the pair, represented by the padded list's total lookup. -/
def dataUrlPairsAux {α : Type} (toDataUrl : α → Str) (ts : List Transform) (i : Nat) :
    List α → List (Str × Transform)
  | [] => []
  | b :: bs => (toDataUrl b, (ts.get? i).getD storeDefaultTransform)
      :: dataUrlPairsAux toDataUrl ts (i + 1) bs

/-- `ImageStore.getAllImageDataURLs(recipeName)` given the record found
under that key (`none` = no record ⇒ `[]`). -/
def getAllImageDataURLs {α : Type} (toDataUrl : α → Str) (rec : Option (StoredRecord α)) :
    List (Str × Transform) :=
  match rec with
  | none => []
  | some r =>
    let bt := resolveStoredBlobs r
    let padded := padTransforms bt.2 bt.1.length
    dataUrlPairsAux toDataUrl padded 0 bt.1

/-- JS `mapping[p] = v` on a function view: used to compare packages that
differ at one entry. -/
def zipUpdate (zip : Zip) (p : Str) (v : Option XmlDoc) : Zip :=
  fun q => if q = p then v else zip q

/-- Specification-side predicate (spec §4.1 step 3): a relationship
qualifies as the drawing link when its target contains `"drawing"`. -/
def drawingRelQualifies (rel : Xml) : Bool :=
  match getAttr rel (strL "Target") with
  | some t => jsIncludes t (strL "drawing")
  | none => false

/-- Specification-side form of `extractDrawingPath` (spec §4.1 step 3):
the first qualifying relationship in document order, resolved. -/
def drawingPathSpec (d : XmlDoc) : Option Str :=
  (((docElemsByTag d (strL "Relationship")).filter drawingRelQualifies).head?).map
    (fun rel => resolveTarget ((getAttr rel (strL "Target")).getD []))

/-- Amended qualification predicate for image relationships: a `Target`
attribute is present and non-empty, and the target path or the declared
`Type` contains `"image"`. -/
def imageRelQualifies (rel : Xml) : Bool :=
  match getAttr rel (strL "Target") with
  | some t =>
    !t.isEmpty &&
      (jsIncludes t (strL "image") ||
        (match getAttr rel (strL "Type") with
         | some ty => jsIncludes ty (strL "image")
         | none => false))
  | none => false

/-- Specification-side form of `extractImagePaths` (spec §4.3, amended):
qualifying relationships in document order, each resolved. -/
def imagePathsSpec (d : XmlDoc) : List Str :=
  ((docElemsByTag d (strL "Relationship")).filter imageRelQualifies).map
    (fun rel => resolveTarget ((getAttr rel (strL "Target")).getD []))

/-- Image-relationship qualification exactly as the specification words
it: the target path or the declared type contains `"image"` (no
requirement that a target exist). -/
def imageRelQualifiesClaim (rel : Xml) : Bool :=
  (match getAttr rel (strL "Target") with
   | some t => jsIncludes t (strL "image")
   | none => false) ||
  (match getAttr rel (strL "Type") with
   | some ty => jsIncludes ty (strL "image")
   | none => false)

/-! ## Concrete example inputs (spec §8 examples and counterexamples) -/

/-- Shape transform carrying the spec example's raw rotation `5400000`. -/
def xfrmEx : Xml := .elem (strL "a:xfrm") [(strL "rot", strL "5400000")] []

/-- Source rectangle carrying the spec example's raw left crop `10000`. -/
def srcRectEx : Xml := .elem (strL "a:srcRect") [(strL "l", strL "10000")] []

/-- Picture rotated 90° (raw `5400000`) and cropped 10% left (raw `10000`). -/
def picEx1 : Xml :=
  .elem (strL "xdr:pic") []
    [ .elem (strL "xdr:spPr") [] [xfrmEx],
      .elem (strL "xdr:blipFill") [] [srcRectEx] ]

/-- Picture with no explicit transform attributes. -/
def picEx2 : Xml := .elem (strL "xdr:pic") [] []

/-- Picture with a negative raw rotation attribute. -/
def picNeg : Xml :=
  .elem (strL "xdr:pic") []
    [ .elem (strL "xdr:spPr") [] [.elem (strL "a:xfrm") [(strL "rot", strL "-60000")] []] ]

/-- Drawing document containing only the negatively rotated picture. -/
def docNeg : XmlDoc := .doc (.elem (strL "xdr:wsDr") [] [picNeg])

/-- Relationship with an image type but no target at all. -/
def relNoTarget : Xml :=
  .elem (strL "Relationship") [(strL "Type", strL "http://schemas/image/png")] []

/-- Relationship with an image type but an empty target. -/
def relEmptyTarget : Xml :=
  .elem (strL "Relationship")
    [(strL "Target", strL ""), (strL "Type", strL "http://schemas/image/jpeg")] []

/-- Drawing-relationships document for the two relationships above. -/
def docCE : XmlDoc := .doc (.elem (strL "Relationships") [] [relNoTarget, relEmptyTarget])

/-- Workbook manifest with one sheet named `Sheet1` whose internal
identifier is deliberately non-contiguous (`99`). -/
def wbDocEx : XmlDoc :=
  .doc (.elem (strL "workbook") []
    [.elem (strL "sheets") []
      [.elem (strL "sheet") [(strL "name", strL "Sheet1"), (strL "sheetId", strL "99")] []]])

/-- Sheet relationships pointing at a drawing. -/
def relsDocEx : XmlDoc :=
  .doc (.elem (strL "Relationships") []
    [.elem (strL "Relationship") [(strL "Target", strL "../drawings/drawing1.xml")] []])

/-- Drawing body containing the example picture. -/
def drawingDocEx : XmlDoc := .doc (.elem (strL "xdr:wsDr") [] [picEx1])

/-- Drawing relationships pointing at one media entry. -/
def drawingRelsDocEx : XmlDoc :=
  .doc (.elem (strL "Relationships") []
    [.elem (strL "Relationship") [(strL "Target", strL "../media/image1.png")] []])

/-- A complete single-sheet package resolving one image. -/
def zipEx : Zip := fun q =>
  if q = manifestPath then some wbDocEx
  else if q = relsPathOf 1 then some relsDocEx
  else if q = strL "xl/drawings/drawing1.xml" then some drawingDocEx
  else if q = strL "xl/drawings/_rels/drawing1.xml.rels" then some drawingRelsDocEx
  else none

/-- The image list `zipEx` records for `Sheet1`. -/
def lEx : List (Str × Transform) :=
  combineImagePathsTransforms (extractImagePaths drawingRelsDocEx)
    (extractImageTransforms drawingDocEx (extractImagePaths drawingRelsDocEx).length)

/-- Manifest with two sheets. -/
def wbDoc2 : XmlDoc :=
  .doc (.elem (strL "workbook") []
    [.elem (strL "sheets") []
      [.elem (strL "sheet") [(strL "name", strL "Sheet1")] [],
       .elem (strL "sheet") [(strL "name", strL "Sheet2")] []]])

/-- Two-sheet package whose first sheet has a present but malformed
relationship file; the second sheet resolves an image normally. -/
def zipW3 : Zip := fun q =>
  if q = manifestPath then some wbDoc2
  else if q = relsPathOf 1 then some XmlDoc.malformed
  else if q = relsPathOf 2 then some relsDocEx
  else if q = strL "xl/drawings/drawing1.xml" then some drawingDocEx
  else if q = strL "xl/drawings/_rels/drawing1.xml.rels" then some drawingRelsDocEx
  else none

/-- The empty package: not even a manifest. -/
def zipNone : Zip := fun _ => none

/-- A package whose manifest entry exists but does not parse. -/
def zipManMal : Zip := fun q => if q = manifestPath then some XmlDoc.malformed else none

/-- A worksheet descriptor used to exercise the skip paths. -/
def sheetEx : SheetInfo :=
  { name := some (strL "Sheet1"), sheetId := some (strL "99"), rId := none, index := 1 }

/-- Manifest with two sheets carrying wild internal identifiers. -/
def docSheets : XmlDoc :=
  .doc (.elem (strL "workbook") []
    [.elem (strL "sheets") []
      [.elem (strL "sheet") [(strL "name", strL "Sheet1"), (strL "sheetId", strL "99")] [],
       .elem (strL "sheet") [(strL "name", strL "Sheet2"), (strL "sheetId", strL "7")] []]])

/-- The descriptor extracted for the second sheet of `docSheets`. -/
def siEx2 : SheetInfo :=
  { name := some (strL "Sheet2"), sheetId := some (strL "7"), rId := none, index := 2 }

/-! ## String lemmas -/

theorem isSubstrOf_iff {pat l : Str} : isSubstrOf pat l = true ↔ pat <:+: l := by
  induction l with
  | nil =>
    simp [isSubstrOf, List.isEmpty_iff, List.infix_nil]
  | cons c t ih =>
    simp only [isSubstrOf, Bool.or_eq_true, List.isPrefixOf_iff_prefix, ih,
      List.infix_cons_iff]

theorem jsIncludes_iff {s pat : Str} : jsIncludes s pat = true ↔ pat <:+: s :=
  isSubstrOf_iff

/-- An infix of `t` is an infix of `s ++ t`. -/
theorem infix_append_left_ctx {p t : Str} (s : Str) (h : p <:+: t) : p <:+: s ++ t :=
  h.trans ⟨s, [], by simp⟩

/-- An infix of `t` is an infix of `t ++ s`. -/
theorem infix_append_right_ctx {p t : Str} (s : Str) (h : p <:+: t) : p <:+: t ++ s :=
  h.trans ⟨[], s, by simp⟩

/-- If a pattern avoiding a character class occurs in `a ++ mid ++ b`
where `mid` is a nonempty run of characters of that class, the occurrence
lies entirely inside `a` or entirely inside `b`. -/
theorem infix_separated {P : Char → Prop} {pat a mid b : Str}
    (h : pat <:+: a ++ mid ++ b) (hpat : ∀ c ∈ pat, ¬ P c) (hmid : ∀ c ∈ mid, P c)
    (hmidne : mid ≠ []) (hpatne : pat ≠ []) : pat <:+: a ∨ pat <:+: b := by
  obtain ⟨s, t, hst⟩ := h
  by_cases hca : s.length + pat.length ≤ a.length
  · left
    have ha : a = List.take a.length (a ++ mid ++ b) := by
      rw [List.append_assoc, List.take_left]
    rw [← hst] at ha
    rw [List.append_assoc, List.take_append_eq_append_take,
      List.take_of_length_le (by omega : s.length ≤ a.length),
      List.take_append_eq_append_take,
      List.take_of_length_le (by omega : pat.length ≤ a.length - s.length)] at ha
    exact ⟨s, _, by rw [List.append_assoc]; exact ha.symm⟩
  · by_cases hcb : a.length + mid.length ≤ s.length
    · right
      have hb : b = List.drop (a.length + mid.length) (a ++ mid ++ b) := by
        rw [← List.length_append, List.drop_left]
      rw [← hst] at hb
      rw [List.append_assoc, List.drop_append_eq_append_drop,
        Nat.sub_eq_zero_of_le hcb, List.drop_zero] at hb
      exact ⟨List.drop (a.length + mid.length) s, t, by rw [List.append_assoc]; exact hb.symm⟩
    · exfalso
      set q := max s.length a.length with hq
      have h1 : s.length ≤ q := le_max_left _ _
      have h2 : a.length ≤ q := le_max_right _ _
      have h3 : q < s.length + pat.length := by
        rcases max_cases s.length a.length with ⟨he, _⟩ | ⟨he, _⟩ <;> rw [hq, he]
        · have : pat.length ≠ 0 := fun hz => hpatne (List.eq_nil_of_length_eq_zero hz)
          omega
        · omega
      have h4 : q < a.length + mid.length := by
        rcases max_cases s.length a.length with ⟨he, _⟩ | ⟨he, _⟩ <;> rw [hq, he]
        · omega
        · have : mid.length ≠ 0 := fun hz => hmidne (List.eq_nil_of_length_eq_zero hz)
          omega
      have hL : (s ++ pat ++ t).get? q = pat.get? (q - s.length) := by
        rw [List.append_assoc, List.get?_append_right h1,
          List.get?_append (by omega : q - s.length < pat.length)]
      have hR : (a ++ mid ++ b).get? q = mid.get? (q - a.length) := by
        rw [List.append_assoc, List.get?_append_right h2,
          List.get?_append (by omega : q - a.length < mid.length)]
      rw [hst, hR] at hL
      obtain ⟨cm, hcm⟩ : ∃ cm, mid.get? (q - a.length) = some cm := by
        cases hg : mid.get? (q - a.length) with
        | none => rw [List.get?_eq_none] at hg; omega
        | some cm => exact ⟨cm, rfl⟩
      rw [hcm] at hL
      exact hpat _ (List.get?_mem hL.symm) (hmid _ (List.get?_mem hcm))

/-- Behaviour of `jsReplaceFirst`: either the pattern does not occur and
the string is unchanged, or the leftmost occurrence is replaced. -/
theorem jsReplaceFirst_spec (s pat repl : Str) (hp : pat ≠ []) :
    (¬ pat <:+: s ∧ jsReplaceFirst s pat repl = s) ∨
    (∃ x y, s = x ++ pat ++ y ∧ jsReplaceFirst s pat repl = x ++ repl ++ y) := by
  induction s with
  | nil =>
    refine Or.inl ⟨?_, ?_⟩
    · rw [List.infix_nil]
      exact hp
    · cases pat with
      | nil => exact absurd rfl hp
      | cons c t => rfl
  | cons c t ih =>
    rw [jsReplaceFirst]
    by_cases hpre : pat.isPrefixOf (c :: t) = true
    · rw [hpre]
      simp only [if_true]
      obtain ⟨y, hy⟩ := List.isPrefixOf_iff_prefix.mp hpre
      right
      refine ⟨[], y, ?_, ?_⟩
      · simp [← hy]
      · rw [← hy, List.drop_left]
        simp
    · rw [Bool.not_eq_true] at hpre
      rw [hpre, if_neg Bool.false_ne_true]
      rcases ih with ⟨hni, heq⟩ | ⟨x, y, hs, hr⟩
      · left
        constructor
        · intro hin
          rcases List.infix_cons_iff.mp hin with hp1 | hp2
          · rw [← List.isPrefixOf_iff_prefix, hpre] at hp1
            exact Bool.false_ne_true hp1
          · exact hni hp2
        · rw [heq]
      · right
        refine ⟨c :: x, y, ?_, ?_⟩
        · simp [hs]
        · simp [hr]

/-- Every character produced by `digitChar` is a decimal digit. -/
theorem digitChar_mem_digits (d : Nat) : digitChar d ∈ strL "0123456789" := by
  unfold digitChar
  split <;> decide

/-- Every character of `natDigits n` is a decimal digit. -/
theorem natDigits_digits (n : Nat) : ∀ c ∈ natDigits n, c ∈ strL "0123456789" := by
  unfold natDigits
  generalize n + 1 = fuel
  induction fuel generalizing n with
  | zero => intro c hc; cases hc
  | succ fuel ih =>
    intro c hc
    rw [natDigitsAux] at hc
    split at hc
    · simp only [List.mem_singleton] at hc
      exact hc ▸ digitChar_mem_digits n
    · rcases List.mem_append.mp hc with h | h
      · exact ih (n / 10) c h
      · simp only [List.mem_singleton] at h
        exact h ▸ digitChar_mem_digits (n % 10)

/-- `natDigits` never yields the empty string. -/
theorem natDigits_ne_nil (n : Nat) : natDigits n ≠ [] := by
  unfold natDigits
  rw [natDigitsAux]
  split
  · simp
  · simp

/-- `"drawing"` does not occur in a per-sheet relationship path. -/
theorem no_drawing_in_relsPath (n : Nat) : ¬ strL "drawing" <:+: relsPathOf n := by
  intro h
  rw [relsPathOf] at h
  rcases infix_separated (P := fun c => c ∈ strL "0123456789") h
      (by decide) (natDigits_digits n) (natDigits_ne_nil n) (by decide) with h1 | h1
  · exact absurd h1 (by decide)
  · exact absurd h1 (by decide)

/-- The manifest path is never a per-sheet relationship path. -/
theorem manifest_ne_relsPath (n : Nat) : manifestPath ≠ relsPathOf n := by
  intro h
  have h7 : (relsPathOf n).get? 7 = some 's' := by
    rw [relsPathOf, List.get?_append, List.get?_append]
    · decide
    · decide
    · rw [List.length_append]
      have : (strL "xl/worksheets/_rels/sheet").length = 25 := by decide
      omega
  rw [← h] at h7
  exact absurd h7 (by decide)

/-- A resolved drawing target still contains `"drawing"`. -/
theorem drawing_infix_resolveTarget {t : Str} (h : jsIncludes t (strL "drawing") = true) :
    strL "drawing" <:+: resolveTarget t := by
  have hinf : strL "drawing" <:+: t := jsIncludes_iff.mp h
  rw [resolveTarget]
  rcases jsReplaceFirst_spec t (strL "../") [] (by decide) with ⟨_, heq⟩ | ⟨x, y, hs, hr⟩
  · rw [heq]
    exact infix_append_left_ctx _ hinf
  · simp only [List.append_nil] at hr
    rw [hr]
    rw [hs] at hinf
    rcases infix_separated (P := fun c => c = '.' ∨ c = '/') hinf
        (by decide) (by decide) (by decide) (by decide) with h1 | h1
    · exact infix_append_left_ctx _ (infix_append_right_ctx _ h1)
    · exact infix_append_left_ctx _ (infix_append_left_ctx _ h1)

/-- The derived drawing-relationships path still contains `"drawing"`. -/
theorem drawing_infix_drawingRelsPath {d : Str} (h : strL "drawing" <:+: d) :
    strL "drawing" <:+: drawingRelsPathOf d := by
  rw [drawingRelsPathOf]
  rcases jsReplaceFirst_spec d (strL "/drawings/") (strL "/drawings/_rels/") (by decide) with
    ⟨_, heq⟩ | ⟨x, y, _, hr⟩
  · rw [heq]
    exact infix_append_right_ctx _ h
  · rw [hr]
    have hmid : strL "drawing" <:+: strL "/drawings/_rels/" := by decide
    exact infix_append_right_ctx _
      (infix_append_right_ctx _ (infix_append_left_ctx _ hmid))

/-- Any drawing path returned by `findDrawingTarget` contains `"drawing"`. -/
theorem findDrawingTarget_infix {rels : List Xml} {d : Str}
    (h : findDrawingTarget rels = some d) : strL "drawing" <:+: d := by
  induction rels with
  | nil => cases h
  | cons rel rest ih =>
    rw [findDrawingTarget] at h
    cases hat : getAttr rel (strL "Target") with
    | none =>
      simp only [hat] at h
      exact ih h
    | some t =>
      simp only [hat] at h
      by_cases hc : (!t.isEmpty && jsIncludes t (strL "drawing")) = true
      · rw [if_pos hc] at h
        cases h
        exact drawing_infix_resolveTarget (Bool.and_elim_right hc)
      · rw [if_neg (by simpa using hc)] at h
        exact ih h

/-- Any drawing path returned by `extractDrawingPath` contains `"drawing"`. -/
theorem extractDrawingPath_some_infix {doc : XmlDoc} {d : Str}
    (h : extractDrawingPath doc = some d) : strL "drawing" <:+: d :=
  findDrawingTarget_infix h


/-- `processSheet` reads the package only at the sheet's fixed
relationship path and at paths containing `"drawing"`. -/
theorem processSheet_congr {zip zip' : Zip} {m : Mapping} {s : SheetInfo}
    (hrels : zip' (relsPathOf s.index) = zip (relsPathOf s.index))
    (hother : ∀ q, strL "drawing" <:+: q → zip' q = zip q) :
    processSheet zip' m s = processSheet zip m s := by
  unfold processSheet
  rw [hrels]
  cases hr : zip (relsPathOf s.index) with
  | none => rfl
  | some relsDoc =>
    dsimp only
    cases hdp : extractDrawingPath relsDoc with
    | none => rfl
    | some d =>
      dsimp only
      have hd := extractDrawingPath_some_infix hdp
      rw [hother d hd]
      cases zip d with
      | none => rfl
      | some drawingDoc =>
        dsimp only
        rw [hother _ (drawing_infix_drawingRelsPath hd)]

/-! ## Skip behaviour of the per-sheet loop -/

/-- No relationship file ⇒ `continue`. -/
theorem processSheet_noRels {zip : Zip} {m : Mapping} {s : SheetInfo}
    (h : zip (relsPathOf s.index) = none) : processSheet zip m s = m := by
  unfold processSheet
  rw [h]

/-- Malformed relationship file ⇒ no drawing relationship found ⇒
`continue`. -/
theorem processSheet_malformedRels {zip : Zip} {m : Mapping} {s : SheetInfo}
    (h : zip (relsPathOf s.index) = some XmlDoc.malformed) : processSheet zip m s = m := by
  unfold processSheet
  rw [h]
  rfl

/-- No drawing relationship in the sheet's relationship file ⇒ `continue`. -/
theorem processSheet_noDrawingRel {zip : Zip} {m : Mapping} {s : SheetInfo} {rd : XmlDoc}
    (h1 : zip (relsPathOf s.index) = some rd) (h2 : extractDrawingPath rd = none) :
    processSheet zip m s = m := by
  unfold processSheet
  rw [h1]
  dsimp only
  rw [h2]

/-- Drawing entry absent from the package ⇒ `continue`. -/
theorem processSheet_noDrawingFile {zip : Zip} {m : Mapping} {s : SheetInfo} {rd : XmlDoc} {d : Str}
    (h1 : zip (relsPathOf s.index) = some rd) (h2 : extractDrawingPath rd = some d)
    (h3 : zip d = none) : processSheet zip m s = m := by
  unfold processSheet
  rw [h1]
  dsimp only
  rw [h2]
  dsimp only
  rw [h3]

/-- Drawing relationship file absent ⇒ `continue`. -/
theorem processSheet_noDrawingRelsFile {zip : Zip} {m : Mapping} {s : SheetInfo} {rd dd : XmlDoc}
    {d : Str} (h1 : zip (relsPathOf s.index) = some rd) (h2 : extractDrawingPath rd = some d)
    (h3 : zip d = some dd) (h4 : zip (drawingRelsPathOf d) = none) :
    processSheet zip m s = m := by
  unfold processSheet
  rw [h1]
  dsimp only
  rw [h2]
  dsimp only
  rw [h3]
  dsimp only
  rw [h4]

/-- All reads succeed ⇒ steps 6–7 run. -/
theorem processSheet_run {zip : Zip} {m : Mapping} {s : SheetInfo} {rd dd drd : XmlDoc} {d : Str}
    (h1 : zip (relsPathOf s.index) = some rd) (h2 : extractDrawingPath rd = some d)
    (h3 : zip d = some dd) (h4 : zip (drawingRelsPathOf d) = some drd) :
    processSheet zip m s =
      recordImages m (s.name.getD (strL "null")) (extractImagePaths drd) dd := by
  unfold processSheet
  rw [h1]
  dsimp only
  rw [h2]
  dsimp only
  rw [h3]
  dsimp only
  rw [h4]

/-- C3: a present but unparseable relationship file for one worksheet
makes only that worksheet resolve to absent and never blocks the others:
the whole mapping equals the one built from the same package with that
relationship entry removed, so every other worksheet's entry is exactly
what it would be if the broken worksheet's relationship file were absent
entirely. -/
theorem mapping_malformed_rels_eq_absent (zip : Zip) (n : Nat)
    (hmal : zip (relsPathOf n) = some XmlDoc.malformed) :
    createSheetImageMapping zip =
      createSheetImageMapping (zipUpdate zip (relsPathOf n) none) := by
  have hman : zipUpdate zip (relsPathOf n) none manifestPath = zip manifestPath := by
    unfold zipUpdate
    rw [if_neg (manifest_ne_relsPath n)]
  unfold createSheetImageMapping
  rw [hman]
  cases zip manifestPath with
  | none => rfl
  | some wb =>
    dsimp only
    have key : ∀ (sheets : List SheetInfo) (m : Mapping),
        sheets.foldl (processSheet zip) m =
          sheets.foldl (processSheet (zipUpdate zip (relsPathOf n) none)) m := by
      intro sheets
      induction sheets with
      | nil => intro m; rfl
      | cons s rest ih =>
        intro m
        rw [List.foldl_cons, List.foldl_cons, ih]
        congr 1
        by_cases hsp : relsPathOf s.index = relsPathOf n
        · rw [processSheet_malformedRels (by rw [hsp]; exact hmal),
            processSheet_noRels (by unfold zipUpdate; rw [hsp]; simp)]
        · exact (processSheet_congr
            (by unfold zipUpdate; rw [if_neg hsp])
            (fun q hq => by
              unfold zipUpdate
              rw [if_neg (fun (he : q = relsPathOf n) =>
                no_drawing_in_relsPath n (he ▸ hq))])).symm
    exact key _ []

/-! ## Mapping invariants -/

/-- A successful lookup returns the value of some entry of the list. -/
theorem mapLookup_mem {m : Mapping} {k : Str} {l : List (Str × Transform)}
    (h : mapLookup m k = some l) : ∃ p ∈ m, p.2 = l := by
  unfold mapLookup at h
  cases hf : m.find? (fun p => p.1 == k) with
  | none => rw [hf] at h; cases h
  | some p =>
    rw [hf] at h
    have h' : some p.2 = some l := h
    exact ⟨p, List.mem_of_find?_eq_some hf, by injection h'⟩

/-- Assignment preserves "every value is non-empty" when the assigned
value is non-empty. -/
theorem mapInsert_values {m : Mapping} {k : Str} {v : List (Str × Transform)}
    (hm : ∀ p ∈ m, p.2 ≠ []) (hv : v ≠ []) : ∀ p ∈ mapInsert m k v, p.2 ≠ [] := by
  unfold mapInsert
  split
  · intro p hp
    rcases List.mem_map.mp hp with ⟨q, hq, hfq⟩
    by_cases hqk : (q.1 == k) = true
    · rw [if_pos hqk] at hfq
      rw [← hfq]
      exact hv
    · rw [if_neg (by simpa using hqk)] at hfq
      exact hfq ▸ hm q hq
  · intro p hp
    rcases List.mem_append.mp hp with hq | hq
    · exact hm p hq
    · simp only [List.mem_singleton] at hq
      rw [hq]
      exact hv

/-- Length of the indexed zip of step 7: one output pair per path. -/
theorem combineAux_length (ts : List Transform) (i : Nat) (ps : List Str) :
    (combineAux ts i ps).length = ps.length := by
  induction ps generalizing i with
  | nil => rfl
  | cons p ps ih =>
    rw [combineAux, List.length_cons, List.length_cons, ih]

theorem combine_length (ps : List Str) (ts : List Transform) :
    (combineImagePathsTransforms ps ts).length = ps.length :=
  combineAux_length ts 0 ps

/-- Entry `i` of the indexed zip: the path paired with the transform at
the same index, or the identity transform when the transform list is
exhausted. -/
theorem combineAux_get? (ts : List Transform) (i j : Nat) (ps : List Str) :
    (combineAux ts i ps).get? j =
      (ps.get? j).map (fun p => (p, (ts.get? (i + j)).getD getDefaultTransform)) := by
  induction ps generalizing i j with
  | nil => simp [combineAux]
  | cons p ps ih =>
    cases j with
    | zero => simp [combineAux]
    | succ j =>
      rw [combineAux]
      simp only [List.get?_cons_succ]
      rw [ih]
      have harith : i + 1 + j = i + (j + 1) := by omega
      rw [harith]

theorem combine_get? (ps : List Str) (ts : List Transform) (j : Nat) :
    (combineImagePathsTransforms ps ts).get? j =
      (ps.get? j).map (fun p => (p, (ts.get? j).getD getDefaultTransform)) := by
  rw [combineImagePathsTransforms, combineAux_get?]
  simp

/-- `processSheet` preserves "every value is non-empty". -/
theorem processSheet_values {zip : Zip} {m : Mapping} {s : SheetInfo}
    (hm : ∀ p ∈ m, p.2 ≠ []) : ∀ p ∈ processSheet zip m s, p.2 ≠ [] := by
  unfold processSheet
  cases zip (relsPathOf s.index) with
  | none => exact hm
  | some relsDoc =>
    dsimp only
    cases extractDrawingPath relsDoc with
    | none => exact hm
    | some d =>
      dsimp only
      cases zip d with
      | none => exact hm
      | some dd =>
        dsimp only
        cases zip (drawingRelsPathOf d) with
        | none => exact hm
        | some drd =>
          dsimp only
          unfold recordImages
          by_cases hgt : (extractImagePaths drd).length > 0
          · rw [if_pos hgt]
            refine mapInsert_values hm ?_
            intro hnil
            have hlen := combine_length (extractImagePaths drd)
              (extractImageTransforms dd (extractImagePaths drd).length)
            rw [hnil] at hlen
            simp only [List.length_nil] at hlen
            omega
          · rw [if_neg hgt]
            exact hm

/-- Every value of the final mapping is non-empty. -/
theorem createSheetImageMapping_values (zip : Zip) :
    ∀ p ∈ createSheetImageMapping zip, p.2 ≠ [] := by
  unfold createSheetImageMapping
  cases zip manifestPath with
  | none => intro p hp; cases hp
  | some wb =>
    dsimp only
    have key : ∀ (sheets : List SheetInfo) (m : Mapping), (∀ p ∈ m, p.2 ≠ []) →
        ∀ p ∈ sheets.foldl (processSheet zip) m, p.2 ≠ [] := by
      intro sheets
      induction sheets with
      | nil => intro m hm; exact hm
      | cons s rest ih =>
        intro m hm
        rw [List.foldl_cons]
        exact ih _ (processSheet_values hm)
    exact key _ [] (fun p hp => absurd hp (List.not_mem_nil p))

/-! ## Field behaviour of the single-picture transform extractor -/

/-- A present attribute means the attribute list is non-empty. -/
theorem getAttr_some_attrs_ne_nil {x : Xml} {n s : Str} (h : getAttr x n = some s) :
    x.attrsOf ≠ [] := by
  intro hnil
  rw [getAttr, hnil] at h
  cases h

/-- Present rotation attribute: the raw value is parsed and divided by
60000. -/
theorem extractSingle_rot_present {pic x : Xml} {s : Str}
    (hx : picXfrm pic = some x) (hs : getAttr x (strL "rot") = some s) :
    (extractSingleImageTransform pic).rotation = divNum (parseIntJS s) 60000 := by
  unfold extractSingleImageTransform
  rw [hx]
  dsimp only
  rw [hs]
  cases picSrcRect pic with
  | none => rfl
  | some sr =>
    dsimp only
    split <;> rfl

/-- Absent rotation attribute (or no shape-transform element): identity
rotation. -/
theorem extractSingle_rot_absent {pic : Xml}
    (h : picXfrm pic = none ∨ ∃ x, picXfrm pic = some x ∧ getAttr x (strL "rot") = none) :
    (extractSingleImageTransform pic).rotation = JsNum.of 0 := by
  unfold extractSingleImageTransform
  rcases h with h | ⟨x, hx, hrot⟩
  · rw [h]
    cases picSrcRect pic with
    | none => rfl
    | some sr =>
      dsimp only
      split <;> rfl
  · rw [hx]
    dsimp only
    rw [hrot]
    cases picSrcRect pic with
    | none => rfl
    | some sr =>
      dsimp only
      split <;> rfl

/-- Present horizontal-flip attribute: set iff the raw value is `"1"`. -/
theorem extractSingle_flipH_present {pic x : Xml} {s : Str}
    (hx : picXfrm pic = some x) (hs : getAttr x (strL "flipH") = some s) :
    (extractSingleImageTransform pic).flipH = (s == strL "1") := by
  unfold extractSingleImageTransform
  rw [hx]
  dsimp only
  rw [hs]
  cases picSrcRect pic with
  | none => rfl
  | some sr =>
    dsimp only
    split <;> rfl

/-- Absent horizontal-flip attribute: identity. -/
theorem extractSingle_flipH_absent {pic : Xml}
    (h : picXfrm pic = none ∨ ∃ x, picXfrm pic = some x ∧ getAttr x (strL "flipH") = none) :
    (extractSingleImageTransform pic).flipH = false := by
  unfold extractSingleImageTransform
  rcases h with h | ⟨x, hx, hf⟩
  · rw [h]
    cases picSrcRect pic with
    | none => rfl
    | some sr =>
      dsimp only
      split <;> rfl
  · rw [hx]
    dsimp only
    rw [hf]
    cases picSrcRect pic with
    | none => rfl
    | some sr =>
      dsimp only
      split <;> rfl

/-- Present vertical-flip attribute: set iff the raw value is `"1"`. -/
theorem extractSingle_flipV_present {pic x : Xml} {s : Str}
    (hx : picXfrm pic = some x) (hs : getAttr x (strL "flipV") = some s) :
    (extractSingleImageTransform pic).flipV = (s == strL "1") := by
  unfold extractSingleImageTransform
  rw [hx]
  dsimp only
  rw [hs]
  cases picSrcRect pic with
  | none => rfl
  | some sr =>
    dsimp only
    split <;> rfl

/-- Absent vertical-flip attribute: identity. -/
theorem extractSingle_flipV_absent {pic : Xml}
    (h : picXfrm pic = none ∨ ∃ x, picXfrm pic = some x ∧ getAttr x (strL "flipV") = none) :
    (extractSingleImageTransform pic).flipV = false := by
  unfold extractSingleImageTransform
  rcases h with h | ⟨x, hx, hf⟩
  · rw [h]
    cases picSrcRect pic with
    | none => rfl
    | some sr =>
      dsimp only
      split <;> rfl
  · rw [hx]
    dsimp only
    rw [hf]
    cases picSrcRect pic with
    | none => rfl
    | some sr =>
      dsimp only
      split <;> rfl

/-- Present left-crop attribute: parsed and divided by 1000. -/
theorem extractSingle_crop_left_present {pic sr : Xml} {s : Str}
    (hsr : picSrcRect pic = some sr) (hs : getAttr sr (strL "l") = some s) :
    (extractSingleImageTransform pic).crop.left = divNum (parseIntJS s) 1000 := by
  unfold extractSingleImageTransform
  rw [hsr]
  dsimp only
  rw [if_pos (by
    have := getAttr_some_attrs_ne_nil hs
    simpa [List.length_pos] using this)]
  dsimp only
  rw [hs]

/-- Absent left-crop attribute: identity. -/
theorem extractSingle_crop_left_absent {pic : Xml}
    (h : picSrcRect pic = none ∨ ∃ sr, picSrcRect pic = some sr ∧ getAttr sr (strL "l") = none) :
    (extractSingleImageTransform pic).crop.left = JsNum.of 0 := by
  unfold extractSingleImageTransform
  rcases h with h | ⟨sr, hsr, hl⟩
  · rw [h]
    cases picXfrm pic <;> rfl
  · rw [hsr]
    dsimp only
    by_cases hlen : sr.attrsOf.length > 0
    · rw [if_pos hlen]
      dsimp only
      rw [hl]
      cases picXfrm pic <;> rfl
    · rw [if_neg hlen]
      cases picXfrm pic <;> rfl

/-- Present top-crop attribute: parsed and divided by 1000. -/
theorem extractSingle_crop_top_present {pic sr : Xml} {s : Str}
    (hsr : picSrcRect pic = some sr) (hs : getAttr sr (strL "t") = some s) :
    (extractSingleImageTransform pic).crop.top = divNum (parseIntJS s) 1000 := by
  unfold extractSingleImageTransform
  rw [hsr]
  dsimp only
  rw [if_pos (by
    have := getAttr_some_attrs_ne_nil hs
    simpa [List.length_pos] using this)]
  dsimp only
  rw [hs]

/-- Absent top-crop attribute: identity. -/
theorem extractSingle_crop_top_absent {pic : Xml}
    (h : picSrcRect pic = none ∨ ∃ sr, picSrcRect pic = some sr ∧ getAttr sr (strL "t") = none) :
    (extractSingleImageTransform pic).crop.top = JsNum.of 0 := by
  unfold extractSingleImageTransform
  rcases h with h | ⟨sr, hsr, hl⟩
  · rw [h]
    cases picXfrm pic <;> rfl
  · rw [hsr]
    dsimp only
    by_cases hlen : sr.attrsOf.length > 0
    · rw [if_pos hlen]
      dsimp only
      rw [hl]
      cases picXfrm pic <;> rfl
    · rw [if_neg hlen]
      cases picXfrm pic <;> rfl

/-- Present right-crop attribute: parsed and divided by 1000. -/
theorem extractSingle_crop_right_present {pic sr : Xml} {s : Str}
    (hsr : picSrcRect pic = some sr) (hs : getAttr sr (strL "r") = some s) :
    (extractSingleImageTransform pic).crop.right = divNum (parseIntJS s) 1000 := by
  unfold extractSingleImageTransform
  rw [hsr]
  dsimp only
  rw [if_pos (by
    have := getAttr_some_attrs_ne_nil hs
    simpa [List.length_pos] using this)]
  dsimp only
  rw [hs]

/-- Absent right-crop attribute: identity. -/
theorem extractSingle_crop_right_absent {pic : Xml}
    (h : picSrcRect pic = none ∨ ∃ sr, picSrcRect pic = some sr ∧ getAttr sr (strL "r") = none) :
    (extractSingleImageTransform pic).crop.right = JsNum.of 0 := by
  unfold extractSingleImageTransform
  rcases h with h | ⟨sr, hsr, hl⟩
  · rw [h]
    cases picXfrm pic <;> rfl
  · rw [hsr]
    dsimp only
    by_cases hlen : sr.attrsOf.length > 0
    · rw [if_pos hlen]
      dsimp only
      rw [hl]
      cases picXfrm pic <;> rfl
    · rw [if_neg hlen]
      cases picXfrm pic <;> rfl

/-- Present bottom-crop attribute: parsed and divided by 1000. -/
theorem extractSingle_crop_bottom_present {pic sr : Xml} {s : Str}
    (hsr : picSrcRect pic = some sr) (hs : getAttr sr (strL "b") = some s) :
    (extractSingleImageTransform pic).crop.bottom = divNum (parseIntJS s) 1000 := by
  unfold extractSingleImageTransform
  rw [hsr]
  dsimp only
  rw [if_pos (by
    have := getAttr_some_attrs_ne_nil hs
    simpa [List.length_pos] using this)]
  dsimp only
  rw [hs]

/-- Absent bottom-crop attribute: identity. -/
theorem extractSingle_crop_bottom_absent {pic : Xml}
    (h : picSrcRect pic = none ∨ ∃ sr, picSrcRect pic = some sr ∧ getAttr sr (strL "b") = none) :
    (extractSingleImageTransform pic).crop.bottom = JsNum.of 0 := by
  unfold extractSingleImageTransform
  rcases h with h | ⟨sr, hsr, hl⟩
  · rw [h]
    cases picXfrm pic <;> rfl
  · rw [hsr]
    dsimp only
    by_cases hlen : sr.attrsOf.length > 0
    · rw [if_pos hlen]
      dsimp only
      rw [hl]
      cases picXfrm pic <;> rfl
    · rw [if_neg hlen]
      cases picXfrm pic <;> rfl

/-! ## Transform-list and relationship-scan characterisations -/

/-- The transform extractor yields one transform per picture element, up
to the requested count. -/
theorem extractImageTransforms_length (d : XmlDoc) (n : Nat) :
    (extractImageTransforms d n).length =
      min (docElemsByTag d (strL "xdr:pic")).length n := by
  rw [extractImageTransforms, List.length_map, List.length_take]
  exact Nat.min_comm _ _

/-- Transform `i` is the extraction of picture `i` alone. -/
theorem extractImageTransforms_get? (d : XmlDoc) (n i : Nat) :
    (extractImageTransforms d n).get? i =
      (((docElemsByTag d (strL "xdr:pic")).take n).get? i).map extractSingleImageTransform := by
  rw [extractImageTransforms, List.get?_map]

/-- `s.includes(pat)` fails on the empty string for non-empty `pat`. -/
theorem jsIncludes_nil {pat : Str} (h : pat ≠ []) : jsIncludes [] pat = false := by
  rw [jsIncludes, isSubstrOf]
  cases pat with
  | nil => exact absurd rfl h
  | cons c t => rfl

/-- A string containing a non-empty pattern is non-empty, so the JS
truthiness guard on the target is redundant when the inclusion holds. -/
theorem truthy_and_includes {t p : Str} (h : p ≠ []) :
    (!t.isEmpty && jsIncludes t p) = jsIncludes t p := by
  cases t with
  | nil => rw [jsIncludes_nil h, Bool.and_false]
  | cons c tl => rw [List.isEmpty_cons, Bool.not_false, Bool.true_and]



/-- Refinement: the source's drawing-path scan computes the
specification's first-qualifying-relationship rule. -/
theorem findDrawingTarget_eq_spec (rels : List Xml) :
    findDrawingTarget rels =
      ((rels.filter drawingRelQualifies).head?).map
        (fun rel => resolveTarget ((getAttr rel (strL "Target")).getD [])) := by
  induction rels with
  | nil => rfl
  | cons rel rest ih =>
    rw [findDrawingTarget]
    cases hat : getAttr rel (strL "Target") with
    | none =>
      rw [List.filter_cons_of_neg (by simp [drawingRelQualifies, hat])]
      exact ih
    | some t =>
      dsimp only
      rw [truthy_and_includes (t := t) (show strL "drawing" ≠ [] by decide)]
      cases hinc : jsIncludes t (strL "drawing") with
      | false =>
        rw [if_neg Bool.false_ne_true]
        rw [List.filter_cons_of_neg (by simp [drawingRelQualifies, hat, hinc])]
        exact ih
      | true =>
        rw [if_pos rfl]
        rw [List.filter_cons_of_pos (by simp [drawingRelQualifies, hat, hinc])]
        rw [List.head?_cons, Option.map_some', hat]
        rfl

theorem extractDrawingPath_eq_spec (d : XmlDoc) :
    extractDrawingPath d = drawingPathSpec d :=
  findDrawingTarget_eq_spec _



/-- Refinement: the source's image-relationship scan computes the
qualify-then-resolve rule, in document order. -/
theorem extractImagePaths_eq_spec (d : XmlDoc) :
    extractImagePaths d = imagePathsSpec d := by
  rw [extractImagePaths, imagePathsSpec]
  induction docElemsByTag d (strL "Relationship") with
  | nil => rfl
  | cons rel rest ih =>
    rw [List.filterMap_cons]
    cases hat : getAttr rel (strL "Target") with
    | none =>
      rw [imageRelResolve, hat]
      rw [List.filter_cons_of_neg (by simp [imageRelQualifies, hat])]
      exact ih
    | some t =>
      rw [imageRelResolve, hat]
      dsimp only
      have hty : (match getAttr rel (strL "Type") with
          | some ty => !ty.isEmpty && jsIncludes ty (strL "image")
          | none => false) =
          (match getAttr rel (strL "Type") with
          | some ty => jsIncludes ty (strL "image")
          | none => false) := by
        cases getAttr rel (strL "Type") with
        | none => rfl
        | some ty =>
          dsimp only
          cases ty with
          | nil =>
            rw [jsIncludes_nil (show strL "image" ≠ [] by decide)]
            rfl
          | cons c tl => rw [List.isEmpty_cons, Bool.not_false, Bool.true_and]
      by_cases hq : (!t.isEmpty &&
          (jsIncludes t (strL "image") ||
            (match getAttr rel (strL "Type") with
             | some ty => !ty.isEmpty && jsIncludes ty (strL "image")
             | none => false))) = true
      · rw [if_pos hq]
        rw [List.filter_cons_of_pos (by rw [imageRelQualifies, hat, ← hty]; exact hq)]
        rw [List.map_cons, hat]
        dsimp only [Option.getD]
        rw [ih]
        rfl
      · rw [if_neg hq]
        rw [List.filter_cons_of_neg (by rw [imageRelQualifies, hat, ← hty]; exact hq)]
        exact ih

/-! ## Arithmetic range helpers -/

/-- A raw angle in `[0, 21600000)` divides to a degree in `[0, 360)`. -/
theorem rot_range {v : Int} (h0 : 0 ≤ v) (h1 : v < 21600000) :
    0 ≤ ((v : ℚ) / 60000) ∧ ((v : ℚ) / 60000) < 360 := by
  constructor
  · positivity
  · rw [div_lt_iff (by norm_num : (0:ℚ) < 60000)]
    norm_num
    exact_mod_cast h1

/-- A raw crop in `[0, 100000]` divides to a percentage in `[0, 100]`. -/
theorem crop_range {v : Int} (h0 : 0 ≤ v) (h1 : v ≤ 100000) :
    0 ≤ ((v : ℚ) / 1000) ∧ ((v : ℚ) / 1000) ≤ 100 := by
  constructor
  · positivity
  · rw [div_le_iff (by norm_num : (0:ℚ) < 1000)]
    norm_num
    exact_mod_cast h1

/-! ## Sheet list characterisation -/

/-- Entry `i` of the sheet list: 1-based index is position + 1, whatever
the `sheetId` attribute says. -/
theorem extractSheetInfo_get? (d : XmlDoc) (i : Nat) :
    (extractSheetInfo d).get? i =
      ((docElemsByTag d (strL "sheet")).get? i).map (fun x =>
        { name := getAttr x (strL "name")
          sheetId := getAttr x (strL "sheetId")
          rId := getAttr x (strL "r:id")
          index := i + 1 }) := by
  rw [extractSheetInfo, List.get?_map, List.get?_enum]
  cases (docElemsByTag d (strL "sheet")).get? i <;> rfl

/-! ## Empty-input behaviour of steps 6–7 -/

/-- No image paths ⇒ nothing recorded. -/
theorem recordImages_nil {m : Mapping} {k : Str} {dd : XmlDoc} :
    recordImages m k [] dd = m := rfl

/-- With image paths present, steps 6–7 record the indexed zip. -/
theorem recordImages_pos {m : Mapping} {k : Str} {ps : List Str} {dd : XmlDoc}
    (h : ps.length > 0) :
    recordImages m k ps dd =
      mapInsert m k (combineImagePathsTransforms ps (extractImageTransforms dd ps.length)) := by
  rw [recordImages, if_pos h]

/-- Zipping with an empty transform list pairs every path with the
identity transform. -/
theorem combine_nil_transforms (ps : List Str) :
    combineImagePathsTransforms ps [] = ps.map (fun p => (p, getDefaultTransform)) := by
  rw [combineImagePathsTransforms]
  generalize 0 = i
  induction ps generalizing i with
  | nil => rfl
  | cons p ps ih =>
    rw [combineAux, List.map_cons, ih]
    rfl

/-! ## ImageStore lemmas -/

/-- Padding only appends, and reaches length at least `n`. -/
theorem padTransforms_length (ts : List Transform) (n : Nat) :
    (padTransforms ts n).length = max ts.length n := by
  rw [padTransforms, List.length_append, List.length_replicate]
  omega

/-- Padding preserves the original entries. -/
theorem padTransforms_get?_lt {ts : List Transform} {n i : Nat} (h : i < ts.length) :
    (padTransforms ts n).get? i = ts.get? i := by
  rw [padTransforms, List.get?_append h]

/-- Padding fills the tail with the store default. -/
theorem padTransforms_get?_ge {ts : List Transform} {n i : Nat} (h1 : ts.length ≤ i)
    (h2 : i < n) : (padTransforms ts n).get? i = some storeDefaultTransform := by
  rw [padTransforms, List.get?_append_right h1]
  rw [List.get?_eq_getElem?, List.getElem?_replicate, if_pos (by omega)]

/-- One output pair per blob. -/
theorem dataUrlPairsAux_length {α : Type} (f : α → Str) (ts : List Transform) (i : Nat)
    (bs : List α) : (dataUrlPairsAux f ts i bs).length = bs.length := by
  induction bs generalizing i with
  | nil => rfl
  | cons b bs ih =>
    rw [dataUrlPairsAux, List.length_cons, List.length_cons, ih]

/-- Pair `j`: the data URL of blob `j` with transform `i + j`. -/
theorem dataUrlPairsAux_get? {α : Type} (f : α → Str) (ts : List Transform) (i j : Nat)
    (bs : List α) :
    (dataUrlPairsAux f ts i bs).get? j =
      (bs.get? j).map (fun b => (f b, (ts.get? (i + j)).getD storeDefaultTransform)) := by
  induction bs generalizing i j with
  | nil => simp [dataUrlPairsAux]
  | cons b bs ih =>
    cases j with
    | zero => simp [dataUrlPairsAux]
    | succ j =>
      rw [dataUrlPairsAux]
      simp only [List.get?_cons_succ]
      rw [ih]
      have harith : i + 1 + j = i + (j + 1) := by omega
      rw [harith]

/-- Padding is the identity when the list is already long enough. -/
theorem padTransforms_of_ge {ts : List Transform} {n : Nat} (h : n ≤ ts.length) :
    padTransforms ts n = ts := by
  rw [padTransforms, Nat.sub_eq_zero_of_le h, List.replicate_zero, List.append_nil]

/-- What the store reads back from a record written by `saveImage`. -/
theorem resolveStoredBlobs_save {α : Type} (name : Str) (bl : OneOrMany α)
    (tr : Option (OneOrMany Transform)) :
    resolveStoredBlobs (saveImageRecord name bl tr) =
      (normToArray bl,
        if (normToArray bl).length > 0 then
          padTransforms (normTransforms tr) (normToArray bl).length
        else []) := by
  rw [saveImageRecord, resolveStoredBlobs]
  dsimp only
  by_cases h : (normToArray bl).length > 0
  · rw [if_pos h, if_pos h]
    rfl
  · rw [if_neg h, if_neg h]
    have : normToArray bl = [] := by
      cases hn : normToArray bl with
      | nil => rfl
      | cons a l => rw [hn] at h; simp at h
    rw [this]

/-- The read side's output, one pair per resolved blob. -/
theorem getAllImageDataURLs_some {α : Type} (f : α → Str) (r : StoredRecord α) :
    getAllImageDataURLs f (some r) =
      dataUrlPairsAux f
        (padTransforms (resolveStoredBlobs r).2 (resolveStoredBlobs r).1.length) 0
        (resolveStoredBlobs r).1 := rfl

/-! ## Claims -/

/-- C1: for every picture element, a rotation attribute with raw value
`v` yields `rotationDegrees = v / 60000`, and each source-rectangle edge
attribute with raw value `w` yields a crop edge of `w / 1000` percent;
in particular the picture with raw rotation `5400000` and raw left crop
`10000` yields rotation 90 and `crop.left` 10, and a picture with no
transform attributes yields exactly the identity transform. -/
theorem claimC1_transform_unit_conversion (pic : Xml) :
    (∀ x s v, picXfrm pic = some x → getAttr x (strL "rot") = some s →
      parseIntJS s = some v →
      (extractSingleImageTransform pic).rotation = JsNum.of ((v : ℚ) / 60000))
    ∧ (∀ sr s v, picSrcRect pic = some sr → getAttr sr (strL "l") = some s →
      parseIntJS s = some v →
      (extractSingleImageTransform pic).crop.left = JsNum.of ((v : ℚ) / 1000))
    ∧ (∀ sr s v, picSrcRect pic = some sr → getAttr sr (strL "t") = some s →
      parseIntJS s = some v →
      (extractSingleImageTransform pic).crop.top = JsNum.of ((v : ℚ) / 1000))
    ∧ (∀ sr s v, picSrcRect pic = some sr → getAttr sr (strL "r") = some s →
      parseIntJS s = some v →
      (extractSingleImageTransform pic).crop.right = JsNum.of ((v : ℚ) / 1000))
    ∧ (∀ sr s v, picSrcRect pic = some sr → getAttr sr (strL "b") = some s →
      parseIntJS s = some v →
      (extractSingleImageTransform pic).crop.bottom = JsNum.of ((v : ℚ) / 1000))
    ∧ extractSingleImageTransform picEx1 =
        { rotation := JsNum.of 90, flipH := false, flipV := false,
          crop := { left := JsNum.of 10, top := JsNum.of 0,
                    right := JsNum.of 0, bottom := JsNum.of 0 } }
    ∧ extractSingleImageTransform picEx2 = getDefaultTransform := by
  refine ⟨?_, ?_, ?_, ?_, ?_, ?_, ?_⟩
  · intro x s v hx hs hv
    rw [extractSingle_rot_present hx hs, hv]
    rfl
  · intro sr s v hsr hs hv
    rw [extractSingle_crop_left_present hsr hs, hv]
    rfl
  · intro sr s v hsr hs hv
    rw [extractSingle_crop_top_present hsr hs, hv]
    rfl
  · intro sr s v hsr hs hv
    rw [extractSingle_crop_right_present hsr hs, hv]
    rfl
  · intro sr s v hsr hs hv
    rw [extractSingle_crop_bottom_present hsr hs, hv]
    rfl
  · have h : extractSingleImageTransform picEx1 =
        { rotation := JsNum.of (((5400000 : Int) : ℚ) / 60000), flipH := false, flipV := false,
          crop := { left := JsNum.of (((10000 : Int) : ℚ) / 1000), top := JsNum.of 0,
                    right := JsNum.of 0, bottom := JsNum.of 0 } } := rfl
    rw [h]
    simp only [Transform.mk.injEq, Crop.mk.injEq, JsNum.of.injEq]
    norm_num
  · rfl

/-- Witness for C1 at the spec's example picture. -/
theorem claimC1_witness :
    (extractSingleImageTransform picEx1).rotation = JsNum.of (((5400000 : Int) : ℚ) / 60000)
    ∧ (extractSingleImageTransform picEx1).crop.left = JsNum.of (((10000 : Int) : ℚ) / 1000) :=
  ⟨(claimC1_transform_unit_conversion picEx1).1 xfrmEx (strL "5400000") 5400000 rfl rfl
      (by decide),
   (claimC1_transform_unit_conversion picEx1).2.1 srcRectEx (strL "10000") 10000 rfl rfl
      (by decide)⟩

/-- C2 counterexample: the claim "rotationDegrees lies in [0,360) for
every transform produced from any input drawing XML" fails — a picture
whose raw rotation attribute is `-60000` yields rotation `-1`. -/
theorem claimC2_counterexample :
    (extractImageTransforms docNeg 1).map Transform.rotation = [JsNum.of (-1)]
    ∧ ¬ (0 : ℚ) ≤ -1 := by
  constructor
  · have h : (extractImageTransforms docNeg 1).map Transform.rotation =
        [JsNum.of (((-60000 : Int) : ℚ) / 60000)] := rfl
    rw [h]
    simp only [List.cons.injEq, JsNum.of.injEq, and_true]
    norm_num
  · norm_num

/-- C2 (amended): when every raw rotation attribute parses to an integer
in `[0, 21600000)` and every raw crop attribute to an integer in
`[0, 100000]`, the produced rotation lies in `[0, 360)` and every crop
edge in `[0, 100]`; and, unconditionally, an absent rotation, flip or
crop attribute yields exactly the identity field value (the transform
record is total, so no field is ever missing). -/
theorem claimC2_amended_ranges (pic : Xml)
    (hrot : ∀ x s, picXfrm pic = some x → getAttr x (strL "rot") = some s →
      ∃ v : Int, parseIntJS s = some v ∧ 0 ≤ v ∧ v < 21600000)
    (hcl : ∀ sr s, picSrcRect pic = some sr → getAttr sr (strL "l") = some s →
      ∃ v : Int, parseIntJS s = some v ∧ 0 ≤ v ∧ v ≤ 100000)
    (hct : ∀ sr s, picSrcRect pic = some sr → getAttr sr (strL "t") = some s →
      ∃ v : Int, parseIntJS s = some v ∧ 0 ≤ v ∧ v ≤ 100000)
    (hcr : ∀ sr s, picSrcRect pic = some sr → getAttr sr (strL "r") = some s →
      ∃ v : Int, parseIntJS s = some v ∧ 0 ≤ v ∧ v ≤ 100000)
    (hcb : ∀ sr s, picSrcRect pic = some sr → getAttr sr (strL "b") = some s →
      ∃ v : Int, parseIntJS s = some v ∧ 0 ≤ v ∧ v ≤ 100000) :
    (∃ q : ℚ, (extractSingleImageTransform pic).rotation = JsNum.of q ∧ 0 ≤ q ∧ q < 360)
    ∧ (∃ q : ℚ, (extractSingleImageTransform pic).crop.left = JsNum.of q ∧ 0 ≤ q ∧ q ≤ 100)
    ∧ (∃ q : ℚ, (extractSingleImageTransform pic).crop.top = JsNum.of q ∧ 0 ≤ q ∧ q ≤ 100)
    ∧ (∃ q : ℚ, (extractSingleImageTransform pic).crop.right = JsNum.of q ∧ 0 ≤ q ∧ q ≤ 100)
    ∧ (∃ q : ℚ, (extractSingleImageTransform pic).crop.bottom = JsNum.of q ∧ 0 ≤ q ∧ q ≤ 100)
    ∧ ((picXfrm pic = none ∨ ∃ x, picXfrm pic = some x ∧ getAttr x (strL "rot") = none) →
        (extractSingleImageTransform pic).rotation = JsNum.of 0)
    ∧ ((picXfrm pic = none ∨ ∃ x, picXfrm pic = some x ∧ getAttr x (strL "flipH") = none) →
        (extractSingleImageTransform pic).flipH = false)
    ∧ ((picXfrm pic = none ∨ ∃ x, picXfrm pic = some x ∧ getAttr x (strL "flipV") = none) →
        (extractSingleImageTransform pic).flipV = false)
    ∧ ((picSrcRect pic = none ∨ ∃ sr, picSrcRect pic = some sr ∧ getAttr sr (strL "l") = none) →
        (extractSingleImageTransform pic).crop.left = JsNum.of 0)
    ∧ ((picSrcRect pic = none ∨ ∃ sr, picSrcRect pic = some sr ∧ getAttr sr (strL "t") = none) →
        (extractSingleImageTransform pic).crop.top = JsNum.of 0)
    ∧ ((picSrcRect pic = none ∨ ∃ sr, picSrcRect pic = some sr ∧ getAttr sr (strL "r") = none) →
        (extractSingleImageTransform pic).crop.right = JsNum.of 0)
    ∧ ((picSrcRect pic = none ∨ ∃ sr, picSrcRect pic = some sr ∧ getAttr sr (strL "b") = none) →
        (extractSingleImageTransform pic).crop.bottom = JsNum.of 0) := by
  refine ⟨?_, ?_, ?_, ?_, ?_,
    extractSingle_rot_absent, extractSingle_flipH_absent, extractSingle_flipV_absent,
    extractSingle_crop_left_absent, extractSingle_crop_top_absent,
    extractSingle_crop_right_absent, extractSingle_crop_bottom_absent⟩
  · cases hx : picXfrm pic with
    | none =>
      exact ⟨0, extractSingle_rot_absent (Or.inl hx), le_refl 0, by norm_num⟩
    | some x =>
      cases ha : getAttr x (strL "rot") with
      | none =>
        exact ⟨0, extractSingle_rot_absent (Or.inr ⟨x, hx, ha⟩), le_refl 0, by norm_num⟩
      | some s =>
        obtain ⟨v, hv, h0, h1⟩ := hrot x s hx ha
        rw [extractSingle_rot_present hx ha, hv]
        exact ⟨_, rfl, (rot_range h0 h1).1, (rot_range h0 h1).2⟩
  · cases hx : picSrcRect pic with
    | none =>
      exact ⟨0, extractSingle_crop_left_absent (Or.inl hx), le_refl 0, by norm_num⟩
    | some sr =>
      cases ha : getAttr sr (strL "l") with
      | none =>
        exact ⟨0, extractSingle_crop_left_absent (Or.inr ⟨sr, hx, ha⟩), le_refl 0, by norm_num⟩
      | some s =>
        obtain ⟨v, hv, h0, h1⟩ := hcl sr s hx ha
        rw [extractSingle_crop_left_present hx ha, hv]
        exact ⟨_, rfl, (crop_range h0 h1).1, (crop_range h0 h1).2⟩
  · cases hx : picSrcRect pic with
    | none =>
      exact ⟨0, extractSingle_crop_top_absent (Or.inl hx), le_refl 0, by norm_num⟩
    | some sr =>
      cases ha : getAttr sr (strL "t") with
      | none =>
        exact ⟨0, extractSingle_crop_top_absent (Or.inr ⟨sr, hx, ha⟩), le_refl 0, by norm_num⟩
      | some s =>
        obtain ⟨v, hv, h0, h1⟩ := hct sr s hx ha
        rw [extractSingle_crop_top_present hx ha, hv]
        exact ⟨_, rfl, (crop_range h0 h1).1, (crop_range h0 h1).2⟩
  · cases hx : picSrcRect pic with
    | none =>
      exact ⟨0, extractSingle_crop_right_absent (Or.inl hx), le_refl 0, by norm_num⟩
    | some sr =>
      cases ha : getAttr sr (strL "r") with
      | none =>
        exact ⟨0, extractSingle_crop_right_absent (Or.inr ⟨sr, hx, ha⟩), le_refl 0, by norm_num⟩
      | some s =>
        obtain ⟨v, hv, h0, h1⟩ := hcr sr s hx ha
        rw [extractSingle_crop_right_present hx ha, hv]
        exact ⟨_, rfl, (crop_range h0 h1).1, (crop_range h0 h1).2⟩
  · cases hx : picSrcRect pic with
    | none =>
      exact ⟨0, extractSingle_crop_bottom_absent (Or.inl hx), le_refl 0, by norm_num⟩
    | some sr =>
      cases ha : getAttr sr (strL "b") with
      | none =>
        exact ⟨0, extractSingle_crop_bottom_absent (Or.inr ⟨sr, hx, ha⟩), le_refl 0, by norm_num⟩
      | some s =>
        obtain ⟨v, hv, h0, h1⟩ := hcb sr s hx ha
        rw [extractSingle_crop_bottom_present hx ha, hv]
        exact ⟨_, rfl, (crop_range h0 h1).1, (crop_range h0 h1).2⟩

/-- Witness for C2 (amended) at the spec's example picture. -/
theorem claimC2_witness :
    (∃ q : ℚ, (extractSingleImageTransform picEx1).rotation = JsNum.of q ∧ 0 ≤ q ∧ q < 360)
    ∧ (∃ q : ℚ, (extractSingleImageTransform picEx1).crop.left = JsNum.of q ∧ 0 ≤ q ∧ q ≤ 100) :=
  have h := claimC2_amended_ranges picEx1
    (fun x s hx hs => by
      have hx' : xfrmEx = x := Option.some.inj hx
      subst hx'
      have hs' : strL "5400000" = s := Option.some.inj hs
      exact ⟨5400000, by rw [← hs']; decide, by decide, by decide⟩)
    (fun sr s hsr hs => by
      have hsr' : srcRectEx = sr := Option.some.inj hsr
      subst hsr'
      have hs' : strL "10000" = s := Option.some.inj hs
      exact ⟨10000, by rw [← hs']; decide, by decide, by decide⟩)
    (fun sr s hsr hs => by
      have hsr' : srcRectEx = sr := Option.some.inj hsr
      subst hsr'
      exact Option.noConfusion (show (none : Option Str) = some s from hs))
    (fun sr s hsr hs => by
      have hsr' : srcRectEx = sr := Option.some.inj hsr
      subst hsr'
      exact Option.noConfusion (show (none : Option Str) = some s from hs))
    (fun sr s hsr hs => by
      have hsr' : srcRectEx = sr := Option.some.inj hsr
      subst hsr'
      exact Option.noConfusion (show (none : Option Str) = some s from hs))
  ⟨h.1, h.2.1⟩

/-- Witness for C3: a two-sheet package whose first sheet's relationship
file is present but malformed builds the same mapping as with the entry
absent. -/
theorem claimC3_witness :
    createSheetImageMapping zipW3 =
      createSheetImageMapping (zipUpdate zipW3 (relsPathOf 1) none) :=
  mapping_malformed_rels_eq_absent zipW3 1 rfl

/-- C4: every worksheet name present in the final mapping maps to a
non-empty list, and each of the conditions listed by the claim (no
relationship file, no drawing relationship, missing drawing entry,
missing drawing-relationships entry, no qualifying image relationship)
makes the per-sheet step leave the mapping unchanged — the worksheet is
absent rather than present with an empty list. -/
theorem claimC4_nonempty_or_absent :
    (∀ (zip : Zip) (k : Str) (l : List (Str × Transform)),
      mapLookup (createSheetImageMapping zip) k = some l → l ≠ [])
    ∧ (∀ (zip : Zip) (m : Mapping) (s : SheetInfo),
        zip (relsPathOf s.index) = none → processSheet zip m s = m)
    ∧ (∀ (zip : Zip) (m : Mapping) (s : SheetInfo) (rd : XmlDoc),
        zip (relsPathOf s.index) = some rd → extractDrawingPath rd = none →
        processSheet zip m s = m)
    ∧ (∀ (zip : Zip) (m : Mapping) (s : SheetInfo) (rd : XmlDoc) (d : Str),
        zip (relsPathOf s.index) = some rd → extractDrawingPath rd = some d →
        zip d = none → processSheet zip m s = m)
    ∧ (∀ (zip : Zip) (m : Mapping) (s : SheetInfo) (rd dd : XmlDoc) (d : Str),
        zip (relsPathOf s.index) = some rd → extractDrawingPath rd = some d →
        zip d = some dd → zip (drawingRelsPathOf d) = none → processSheet zip m s = m)
    ∧ (∀ (zip : Zip) (m : Mapping) (s : SheetInfo) (rd dd drd : XmlDoc) (d : Str),
        zip (relsPathOf s.index) = some rd → extractDrawingPath rd = some d →
        zip d = some dd → zip (drawingRelsPathOf d) = some drd →
        extractImagePaths drd = [] → processSheet zip m s = m) := by
  refine ⟨?_, ?_, ?_, ?_, ?_, ?_⟩
  · intro zip k l h
    obtain ⟨p, hp, hpe⟩ := mapLookup_mem h
    exact hpe ▸ createSheetImageMapping_values zip p hp
  · exact fun zip m s h => processSheet_noRels h
  · exact fun zip m s rd h1 h2 => processSheet_noDrawingRel h1 h2
  · exact fun zip m s rd d h1 h2 h3 => processSheet_noDrawingFile h1 h2 h3
  · exact fun zip m s rd dd d h1 h2 h3 h4 => processSheet_noDrawingRelsFile h1 h2 h3 h4
  · intro zip m s rd dd drd d h1 h2 h3 h4 h5
    rw [processSheet_run h1 h2 h3 h4, h5]
    rfl

/-- Witness for C4: the single-sheet example package stores a non-empty
list under `Sheet1`, and a sheet with no relationship file is skipped. -/
theorem claimC4_witness :
    lEx ≠ [] ∧ processSheet zipNone [] sheetEx = [] :=
  ⟨claimC4_nonempty_or_absent.1 zipEx (strL "Sheet1") lEx rfl,
   claimC4_nonempty_or_absent.2.1 zipNone [] sheetEx rfl⟩

/-- C5: a whole-pass failure (missing or unparseable workbook manifest)
yields the empty mapping, returned normally to the caller — never a
partial mapping, since under this model no read can fail after the
manifest has been identified. -/
theorem claimC5_whole_pass_failure (zip : Zip) :
    (zip manifestPath = none → createSheetImageMapping zip = [])
    ∧ (zip manifestPath = some XmlDoc.malformed → createSheetImageMapping zip = []) := by
  constructor
  · intro h
    rw [createSheetImageMapping, h]
  · intro h
    rw [createSheetImageMapping, h]
    rfl

/-- Witness for C5 at the empty package and the malformed-manifest
package. -/
theorem claimC5_witness :
    createSheetImageMapping zipNone = [] ∧ createSheetImageMapping zipManMal = [] :=
  ⟨(claimC5_whole_pass_failure zipNone).1 rfl, (claimC5_whole_pass_failure zipManMal).2 rfl⟩

/-- C6: a worksheet's `packageIndex` is its 1-based position in the
manifest's sheet list (independent of the `sheetId` attribute, which is
recorded but never used for the position), and when the package has no
entry at the fixed path `worksheets/_rels/sheet<packageIndex>.xml.rels`
the worksheet silently resolves to absent. -/
theorem claimC6_package_index (d : XmlDoc) (i : Nat) :
    (∀ si, (extractSheetInfo d).get? i = some si → si.index = i + 1)
    ∧ (∀ (zip : Zip) (m : Mapping) (s : SheetInfo),
        zip (relsPathOf s.index) = none → processSheet zip m s = m) := by
  constructor
  · intro si h
    rw [extractSheetInfo_get?] at h
    cases hx : (docElemsByTag d (strL "sheet")).get? i with
    | none => rw [hx] at h; cases h
    | some x =>
      rw [hx] at h
      have h' : some (⟨getAttr x (strL "name"), getAttr x (strL "sheetId"),
          getAttr x (strL "r:id"), i + 1⟩ : SheetInfo) = some si := h
      rw [← Option.some.inj h']
  · exact fun zip m s h => processSheet_noRels h

/-- Witness for C6: with wildly non-contiguous internal identifiers the
second sheet still gets index 2, and a missing relationship entry skips
the sheet. -/
theorem claimC6_witness : siEx2.index = 1 + 1 ∧ processSheet zipNone [] siEx2 = [] :=
  ⟨(claimC6_package_index docSheets 1).1 siEx2 rfl,
   (claimC6_package_index docSheets 1).2 zipNone [] siEx2 rfl⟩

/-- C7 counterexample: the claim's qualification rule ("target path or
declared type contains `image`") accepts a relationship with an image
`Type` but no (or an empty) `Target`, yet the source produces no path
for such relationships. -/
theorem claimC7_counterexample :
    imageRelQualifiesClaim relNoTarget = true
    ∧ imageRelQualifiesClaim relEmptyTarget = true
    ∧ docElemsByTag docCE (strL "Relationship") = [relNoTarget, relEmptyTarget]
    ∧ extractImagePaths docCE = [] :=
  ⟨rfl, rfl, rfl, rfl⟩

/-- C7 (amended): the drawing path is that of the first relationship in
document order whose target contains `"drawing"` (none if there is
none), resolved against the fixed root; and a relationship contributes
an image path exactly when it has a non-empty `Target` and the target
path or declared `Type` contains `"image"`, the qualifying targets being
resolved against the fixed root in relationship document order. -/
theorem claimC7_amended (d : XmlDoc) :
    extractDrawingPath d = drawingPathSpec d ∧ extractImagePaths d = imagePathsSpec d :=
  ⟨extractDrawingPath_eq_spec d, extractImagePaths_eq_spec d⟩

/-- C8: the transform extractor returns at most `expectedCount`
transforms (exactly one per picture element up to that count), and the
builder's zip step pairs path `i` with transform `i`, substituting the
identity transform when the extractor returned fewer transforms. -/
theorem claimC8_transform_count_zip (d : XmlDoc) (n : Nat) (ps : List Str)
    (ts : List Transform) (j : Nat) (m : Mapping) (k : Str) (dd : XmlDoc) :
    (extractImageTransforms d n).length ≤ n
    ∧ (extractImageTransforms d n).length = min (docElemsByTag d (strL "xdr:pic")).length n
    ∧ (combineImagePathsTransforms ps ts).length = ps.length
    ∧ (combineImagePathsTransforms ps ts).get? j =
        (ps.get? j).map (fun p => (p, (ts.get? j).getD getDefaultTransform))
    ∧ (ps.length > 0 →
        recordImages m k ps dd =
          mapInsert m k
            (combineImagePathsTransforms ps (extractImageTransforms dd ps.length))) := by
  refine ⟨?_, extractImageTransforms_length d n, combine_length ps ts, combine_get? ps ts j,
    fun h => recordImages_pos h⟩
  rw [extractImageTransforms_length]
  exact Nat.min_le_right _ _

/-- Witness for C8: the builder's step at a one-path, one-picture
drawing. -/
theorem claimC8_witness :
    recordImages [] (strL "k") [strL "p"] drawingDocEx =
      mapInsert [] (strL "k")
        (combineImagePathsTransforms [strL "p"]
          (extractImageTransforms drawingDocEx ([strL "p"] : List Str).length)) :=
  (claimC8_transform_count_zip XmlDoc.malformed 0 [strL "p"] [] 0 [] (strL "k")
    drawingDocEx).2.2.2.2 (by decide)

/-- C9: the only parse failure the extractor can hit is an unparseable
drawing document; it is swallowed (no transforms found), after which the
builder pairs every image path with exactly the identity transform — the
image paths themselves are untouched; moreover transform `i` depends
only on picture `i`, so one picture's content never blocks another's
transform. -/
theorem claimC9_parse_error_identity :
    (∀ n, extractImageTransforms XmlDoc.malformed n = [])
    ∧ (∀ ps, combineImagePathsTransforms ps [] = ps.map (fun p => (p, getDefaultTransform)))
    ∧ (∀ (m : Mapping) (k : Str) (ps : List Str), ps.length > 0 →
        recordImages m k ps XmlDoc.malformed =
          mapInsert m k (ps.map (fun p => (p, getDefaultTransform))))
    ∧ (∀ (d : XmlDoc) (n i : Nat),
        (extractImageTransforms d n).get? i =
          (((docElemsByTag d (strL "xdr:pic")).take n).get? i).map
            extractSingleImageTransform) := by
  have hmal : ∀ n, extractImageTransforms XmlDoc.malformed n = [] := by
    intro n
    rw [extractImageTransforms]
    simp [docElemsByTag]
  refine ⟨hmal, combine_nil_transforms, ?_, extractImageTransforms_get?⟩
  intro m k ps h
  rw [recordImages_pos h, hmal, combine_nil_transforms]

/-- Witness for C9: one image path against a malformed drawing is stored
with the identity transform. -/
theorem claimC9_witness :
    recordImages [] (strL "Sheet1") [strL "xl/media/image1.png"] XmlDoc.malformed =
      mapInsert [] (strL "Sheet1")
        (([strL "xl/media/image1.png"] : List Str).map (fun p => (p, getDefaultTransform))) :=
  claimC9_parse_error_identity.2.2.1 [] (strL "Sheet1") [strL "xl/media/image1.png"] (by decide)

/-- C10: `saveImage` pads the stored transform list with the default
identity transform to at least one transform per blob (its length is
exactly the larger of the two input lengths), and `getAllImageDataURLs`
pads again on read, returning exactly one (dataUrl, transform) pair per
stored blob, positionally. -/
theorem claimC10_store_padding {α : Type} (name : Str) (bl : OneOrMany α)
    (tr : Option (OneOrMany Transform)) (f : α → Str) (rec : StoredRecord α) (i : Nat) :
    ((saveImageRecord name bl tr).transforms.getD []).length =
      max (normTransforms tr).length (normToArray bl).length
    ∧ (getAllImageDataURLs f (some (saveImageRecord name bl tr))).length =
        (normToArray bl).length
    ∧ (getAllImageDataURLs f (some (saveImageRecord name bl tr))).get? i =
        ((normToArray bl).get? i).map (fun b =>
          (f b, ((padTransforms (normTransforms tr) (normToArray bl).length).get? i).getD
            storeDefaultTransform))
    ∧ (getAllImageDataURLs f (some rec)).length = (resolveStoredBlobs rec).1.length := by
  refine ⟨?_, ?_, ?_, ?_⟩
  · have h : (saveImageRecord name bl tr).transforms =
        some (padTransforms (normTransforms tr) (normToArray bl).length) := rfl
    rw [h]
    exact padTransforms_length _ _
  · rw [getAllImageDataURLs_some, dataUrlPairsAux_length, resolveStoredBlobs_save]
  · rw [getAllImageDataURLs_some, dataUrlPairsAux_get?, resolveStoredBlobs_save]
    by_cases hb : (normToArray bl).length > 0
    · rw [if_pos hb]
      dsimp only
      rw [padTransforms_of_ge (by rw [padTransforms_length]; omega)]
      rw [Nat.zero_add]
    · have hbe : normToArray bl = [] := by
        cases hn : normToArray bl with
        | nil => rfl
        | cons a l => rw [hn] at hb; simp at hb
      rw [if_neg hb]
      dsimp only
      rw [hbe]
      rfl
  · rw [getAllImageDataURLs_some, dataUrlPairsAux_length]
